import Mathlib

/-!
Verification development for the Aquarius HTTP API layer
(`src/aquarius/app/assets.py`).

The file shallowly embeds the Flask route handlers of `assets.py` as pure
Lean functions.  External collaborators (the data-access object `dao`, the
`plecos` validators, `auth_util`, `util` helpers, `json.dumps`/`json.loads`)
are passed in as explicit function parameters, mirroring the spec, which
treats them as external collaborator contracts.  A handler returns an
`Except String Resp` (the `.error` case models a Python exception escaping
the handler, e.g. a failed `assert`, which Flask turns into a 500 and which
is therefore not a response produced by the handler code itself), together
with the list of observable effects it triggered (construction of a
`MetadataUpdater`, a `do_single_update` call, an Elasticsearch query).
-/

namespace Aquarius

/-- JSON-like values, as delivered by `request.json` and stored in OceanDB.
Python dicts are modelled as association lists (JSON objects have unique
keys, and all dicts handled here come from parsed JSON). -/
inductive JVal where
  | jnull
  | jbool (b : Bool)
  | jnum (n : Int)
  | jstr (s : String)
  | jarr (xs : List JVal)
  | jobj (fs : List (String × JVal))

/-- Python `isinstance(v, dict)`. -/
def JVal.isObj : JVal → Bool
  | .jobj _ => true
  | _ => false

/-- Python truthiness of a JSON value (`if not v: ...`). -/
def truthy : JVal → Bool
  | .jnull => false
  | .jbool b => b
  | .jnum n => n != 0
  | .jstr s => s ≠ ""
  | .jarr xs => ¬ xs.isEmpty
  | .jobj fs => ¬ fs.isEmpty

/-- Python `d.get(k)` on a dict: first binding of `k`, if any. -/
def lookup (fs : List (String × JVal)) (k : String) : Option JVal :=
  (fs.find? (fun p => p.1 == k)).map (fun p => p.2)

/-- Python `d[k] = v`: overwrite an existing binding in place, otherwise
append a new binding (dicts preserve insertion order). -/
def setKey (fs : List (String × JVal)) (k : String) (v : JVal) :
    List (String × JVal) :=
  if (lookup fs k).isSome then
    fs.map (fun p => if p.1 == k then (k, v) else p)
  else
    fs ++ [(k, v)]

/-- Python `d.setdefault(k, v)`. -/
def setdefault (fs : List (String × JVal)) (k : String) (v : JVal) :
    List (String × JVal) :=
  if (lookup fs k).isSome then fs else fs ++ [(k, v)]

/-- Python `k in v` for a JSON value `v`; `none` models the `TypeError`
raised when `v` is not a container (e.g. `None`). For a string, `in` is a
substring test; for a list, membership (a string key can only equal a
string element). -/
def jContainsKey : JVal → String → Option Bool
  | .jobj fs, k => some (lookup fs k).isSome
  | .jarr xs, k =>
      some (xs.any (fun v => match v with | .jstr s => s == k | _ => false))
  | .jstr s, k => some (decide (k.toList <:+: s.toList))
  | _, _ => none

/-- A response body: either a JSON document or plain text.  `jsonify(...)`
and `Response(..., content_type="application/json")` produce `.json`;
returning a bare f-string produces `.text`. -/
inductive RBody where
  | json (v : JVal)
  | text (s : String)

/-- An HTTP response as produced by a handler. -/
structure Resp where
  status : Nat
  body : RBody

/-- Observable side effects of a handler. -/
inductive Eff where
  | newUpdater (otherDbIndex : String)
  | singleUpdate (record : JVal)
  | runEsQuery (data : List (String × JVal))

/-- Replaying a list of effects against a state (used to express that an
empty effect list leaves any store unchanged). -/
def runEffects {σ : Type} (apply : Eff → σ → σ) : List Eff → σ → σ
  | [], s => s
  | e :: es, s => runEffects apply es (apply e s)

/-- Outcome of `dao.get(did)`: the returned value (possibly falsy), or an
exception (in particular, DID not present in OceanDB). -/
inductive GetOutcome where
  | ok (r : JVal)
  | exn

/-- External authorization collaborators (`aquarius.app.auth_util`, not part
of the excerpt).  `has_update_request_permission` is the allow-list check;
`get_signer_address` recovers the signer address from `(address, signature)`
and returns `none` on failure (it swallows exceptions and logs them). -/
structure AuthCtx where
  has_update_request_permission : String → Bool
  get_signer_address : String → String → Option String

/-- The store-facing collaborators used by the update/delist handlers:
`dao.get`, the main index name `dao.oceandb.driver.db_index`, and whether
the `MetadataUpdater` construction plus `do_single_update` call completes
without raising for a given record. -/
structure StoreCtx where
  dao_get : String → GetOutcome
  db_index : String
  do_single_update_ok : JVal → Bool

/-- The 401 response `jsonify(error="Unauthorized."), 401`. -/
def unauthorized : Resp :=
  ⟨401, .json (.jobj [("error", .jstr "Unauthorized.")])⟩

/-- Reads a string field from the request body the way the update/delist
handlers consume it: `data.get(k, None)` followed by a Python truthiness
test. A missing key, a falsy value (`None`, `""`) or a non-string value all
lead to the same 401 outcome in the handlers (a non-string value can never
be on the (string) allow-list nor yield a matching recovered address), so
they are uniformly modelled as `none`. -/
def getStrField (body : JVal) (k : String) : Option String :=
  match body with
  | .jobj fs =>
    match lookup fs k with
    | some (.jstr s) => if s = "" then none else some s
    | _ => none
  | _ => none

/-! ## GET handlers -/

/-- `GET /` (`get_assets_ids`, assets.py lines 54-66): ids of all listed
assets that carry an `id` key, as a JSON list.  `listed` stands for
`dao.get_all_listed_assets()` (each element a record dict). -/
def get_assets_ids (listed : List (List (String × JVal))) : Resp :=
  ⟨200, .json (.jarr (listed.filterMap (fun fs => lookup fs "id")))⟩

/-- `GET /ddo/<did>` (`get_ddo`, assets.py lines 69-94). `sanitize` stands
for `util.sanitize_record`; `dao_get` for `dao.get`.  A `dao.get` exception
is caught and answered with the plain-text 404. -/
def get_ddo (sanitize : JVal → JVal) (dao_get : String → GetOutcome)
    (did : String) : Resp :=
  match dao_get did with
  | .ok r => ⟨200, .json (sanitize r)⟩
  | .exn => ⟨404, .text (did ++ " asset DID is not in OceanDB")⟩

/-- `GET /ddo` (`get_asset_ddos`, assets.py lines 97-114): all listed
records, sanitized, as a JSON list. -/
def get_asset_ddos (sanitize : JVal → JVal) (listed : List JVal) : Resp :=
  ⟨200, .json (.jarr (listed.map sanitize))⟩

/-- `GET /metadata/<did>` (`get_metadata`, assets.py lines 117-141).
`getMetaSvc` stands for `util.get_metadata_from_services` (`none` models an
exception inside it, e.g. no metadata service present).  Every exception in
the `try` block (unknown DID, record without a `service` key, non-dict
record, helper failure) is answered with the plain-text 404. -/
def get_metadata (sanitize : JVal → JVal) (getMetaSvc : JVal → Option JVal)
    (dao_get : String → GetOutcome) (did : String) : Resp :=
  match dao_get did with
  | .exn => ⟨404, .text (did ++ " asset DID is not in OceanDB")⟩
  | .ok r =>
    match r with
    | .jobj fs =>
      match lookup fs "service" with
      | none => ⟨404, .text (did ++ " asset DID is not in OceanDB")⟩
      | some sv =>
        match getMetaSvc sv with
        | none => ⟨404, .text (did ++ " asset DID is not in OceanDB")⟩
        | some md => ⟨200, .json (sanitize md)⟩
    | _ => ⟨404, .text (did ++ " asset DID is not in OceanDB")⟩

/-! ## The search handler and the DID-escaping rewrite -/

/-- `"did:op:"` as a character list. -/
def did_str : List Char := ['d', 'i', 'd', ':', 'o', 'p', ':']

/-- The Python literal `"did\\\:op\\\:"`, i.e. the eleven characters
d i d backslash backslash colon o p backslash backslash colon (in Python,
a double backslash is one backslash and the unrecognized escape backslash
colon stays as two characters). -/
def esc_did_str : List Char :=
  ['d', 'i', 'd', '\\', '\\', ':', 'o', 'p', '\\', '\\', ':']

/-- Python `s.replace(pat, rep)` on character lists: scan left to right,
replacing non-overlapping occurrences of `pat` (assumed non-empty, as both
patterns of the handler are). -/
def replaceList (pat rep : List Char) : List Char → List Char
  | [] => []
  | c :: cs =>
    if pat <+: (c :: cs) then
      rep ++ replaceList pat rep (List.drop (pat.length - 1) cs)
    else
      c :: replaceList pat rep cs
termination_by l => l.length
decreasing_by
  · simp only [List.length_cons, List.length_drop]
    omega
  · simp only [List.length_cons]
    omega

/-- assets.py line 195: `querystr.replace(esc_did_str, did_str)`. -/
def unescapeDids (l : List Char) : List Char :=
  replaceList esc_did_str did_str l

/-- assets.py lines 195-196: the complete DID-escaping rewrite applied to
the serialized query: first replace every `esc_did_str` by `did_str`, then
every `did_str` by `esc_did_str`. -/
def escapeDids (l : List Char) : List Char :=
  replaceList did_str esc_did_str (unescapeDids l)

/-- The same rewrite on a `String` (the serialized query). -/
def escapeDidsStr (s : String) : String :=
  (escapeDids s.toList).asString

/-- assets.py lines 192-199: the request dict as it stands right before
`dao.run_es_query(data)`: `data["query"]` is replaced by the reparse of the
escaped serialization, then `page` defaults to 1 and `offset` to 100.
`dumps`/`loads` stand for `json.dumps`/`json.loads` (`loads` returns `none`
on a decode error, which would escape the handler). -/
def esQueryData (dumps : JVal → String) (loads : String → Option JVal)
    (fs : List (String × JVal)) (q : JVal) : Option (List (String × JVal)) :=
  (loads (escapeDidsStr (dumps q))).map (fun q' =>
    setdefault (setdefault (setKey fs "query" q') "page" (.jnum 1))
      "offset" (.jnum 100))

/-- `POST /ddo/query` (`es_query_ddo`, assets.py lines 147-213).  `runQ`
stands for `dao.run_es_query` (`none` = exception; otherwise a list of hits
and a total count), `paginate` for `util.make_paginate_response` applied to
the sanitized hits, the sort key, the offset and the page. -/
def es_query_ddo (dumps : JVal → String) (loads : String → Option JVal)
    (runQ : List (String × JVal) → Option (List JVal × Nat))
    (paginate : List JVal × Nat → Option JVal → JVal → JVal → JVal)
    (sanitize : JVal → JVal) (body : JVal) :
    Except String Resp × List Eff :=
  match body with
  | .jobj data =>
    match jContainsKey ((lookup data "query").getD .jnull) "query_string" with
    | none => (.error "argument of type NoneType is not iterable", [])
    | some false => (.error "No query_string found.", [])
    | some true =>
      match esQueryData dumps loads data ((lookup data "query").getD .jnull) with
      | none => (.error "json decode error", [])
      | some final =>
        match runQ final with
        | none => (.error "store query error", [Eff.runEsQuery final])
        | some res =>
          (.ok ⟨200, .json (paginate (res.1.map sanitize, res.2)
              (lookup final "sort") ((lookup final "offset").getD .jnull)
              ((lookup final "page").getD .jnull))⟩,
            [Eff.runEsQuery final])
  | _ => (.error "invalid payload format.", [])

/-! ## Validation handlers -/

/-- `POST /ddo/validate` (`validate`, assets.py lines 221-250).
`isValidLocal` stands for `plecos.is_valid_dict_local`, `listErrorsLocal`
for `util.list_errors(list_errors_dict_local, data)`. -/
def validate (isValidLocal : JVal → Bool) (listErrorsLocal : JVal → List JVal)
    (body : JVal) : Except String Resp :=
  if ¬ body.isObj then .error "invalid payload format."
  else if isValidLocal body then .ok ⟨200, .json (.jbool true)⟩
  else .ok ⟨200, .json (.jarr (listErrorsLocal body))⟩

/-- `POST /ddo/validate-remote` (`validate_remote`, assets.py lines
253-294).  `getMetaSvc` stands for `util.get_metadata_from_services`, which
extracts the metadata service entry (a dict) from the value of the
`service` key; `none` models an exception escaping it.  `isValidRemote` and
`listErrorsRemote` stand for the remote plecos validator and its error
list. -/
def validate_remote (getMetaSvc : JVal → Option (List (String × JVal)))
    (isValidRemote : JVal → Bool) (listErrorsRemote : JVal → List JVal)
    (body : JVal) : Except String Resp :=
  match body with
  | .jobj fs =>
    match lookup fs "service" with
    | none => .ok ⟨400, .json (.jobj [("message", .jstr "Invalid DDO format.")])⟩
    | some sv =>
      match getMetaSvc sv with
      | none => .error "exception in get_metadata_from_services"
      | some mfs =>
        match lookup mfs "attributes" with
        | none => .ok ⟨400, .json (.jobj [("message", .jstr "Invalid DDO format.")])⟩
        | some attrs =>
          if isValidRemote attrs then .ok ⟨200, .json (.jbool true)⟩
          else .ok ⟨200, .json (.jarr (listErrorsRemote attrs))⟩
  | _ => .error "invalid payload format."

/-! ## Update and delist handlers -/

/-- The `try` block of `update_ddo_info` (assets.py lines 315-331): fetch
the record, 404 (JSON) if falsy, otherwise construct a `MetadataUpdater`
on the `_plus` index and run `do_single_update`; any exception in the block
is answered with the plain-text 404. -/
def updateTryBlock (st : StoreCtx) (did : String) :
    Except String Resp × List Eff :=
  match st.dao_get did with
  | .exn => (.ok ⟨404, .text (did ++ " asset DID is not in OceanDB")⟩, [])
  | .ok r =>
    if ¬ truthy r then
      (.ok ⟨404, .json (.jobj [("error", .jstr ("Asset " ++ did ++ " not found."))])⟩, [])
    else
      if st.do_single_update_ok r then
        (.ok ⟨200, .json (.jstr "acknowledged.")⟩,
          [.newUpdater (st.db_index ++ "_plus"), .singleUpdate r])
      else
        (.ok ⟨404, .text (did ++ " asset DID is not in OceanDB")⟩,
          [.newUpdater (st.db_index ++ "_plus"), .singleUpdate r])

/-- `PUT /ddo/update/<did>` (`update_ddo_info`, assets.py lines 297-331).
The admin checks are skipped when the request comes from the loopback
address; otherwise `adminAddress` must be truthy and permitted, and the
signature must recover (case-insensitively) to that address. -/
def update_ddo_info (au : AuthCtx) (st : StoreCtx) (remote : String)
    (body : JVal) (did : String) : Except String Resp × List Eff :=
  if ¬ (truthy body ∧ body.isObj) then (.error "invalid payload format.", [])
  else if remote = "127.0.0.1" then updateTryBlock st did
  else
    match getStrField body "adminAddress" with
    | none => (.ok unauthorized, [])
    | some address =>
      if ¬ au.has_update_request_permission address then (.ok unauthorized, [])
      else
        match (getStrField body "signature").bind
            (au.get_signer_address address) with
        | none => (.ok unauthorized, [])
        | some recovered =>
          if recovered.toLower = address.toLower then updateTryBlock st did
          else (.ok unauthorized, [])

/-- The `try` block of `delist_ddo` (assets.py lines 350-367), a verbatim
duplicate of the one in `update_ddo_info`. -/
def delistTryBlock (st : StoreCtx) (did : String) :
    Except String Resp × List Eff :=
  match st.dao_get did with
  | .exn => (.ok ⟨404, .text (did ++ " asset DID is not in OceanDB")⟩, [])
  | .ok r =>
    if ¬ truthy r then
      (.ok ⟨404, .json (.jobj [("error", .jstr ("Asset " ++ did ++ " not found."))])⟩, [])
    else
      if st.do_single_update_ok r then
        (.ok ⟨200, .json (.jstr "acknowledged.")⟩,
          [.newUpdater (st.db_index ++ "_plus"), .singleUpdate r])
      else
        (.ok ⟨404, .text (did ++ " asset DID is not in OceanDB")⟩,
          [.newUpdater (st.db_index ++ "_plus"), .singleUpdate r])

/-- `DELETE /ddo/<did>` (`delist_ddo`, assets.py lines 334-367).  The
handler receives the request (whose remote address it never consults) and
runs the admin checks unconditionally. -/
def delist_ddo (au : AuthCtx) (st : StoreCtx) (_remote : String)
    (body : JVal) (did : String) : Except String Resp × List Eff :=
  if ¬ (truthy body ∧ body.isObj) then (.error "invalid payload format.", [])
  else
    match getStrField body "adminAddress" with
    | none => (.ok unauthorized, [])
    | some address =>
      if ¬ au.has_update_request_permission address then (.ok unauthorized, [])
      else
        match (getStrField body "signature").bind
            (au.get_signer_address address) with
        | none => (.ok unauthorized, [])
        | some recovered =>
          if recovered.toLower = address.toLower then delistTryBlock st did
          else (.ok unauthorized, [])

/-! ## The Metadata Updater core (spec-modelled)

`MetadataUpdater.do_single_update` lives in
`aquarius/events/metadata_updater.py`, which is not part of the excerpt
(only its caller in `assets.py` is).  The definitions below are therefore
modelled from the spec, section 4.2. -/

/-- Modelled from the spec: a decoded on-chain metadata event for one DID,
ordered by `(block number, log index)`, flattened here into a single
monotone position. -/
structure ChainEvent where
  pos : Nat
  isRetire : Bool
  payload : JVal

/-- Modelled from the spec: the main-index record for one DID, with its
on-chain linkage (`none` = unresolvable), the last-processed event marker
and the purgatory flag. -/
structure MainRecord where
  onchainId : Option String
  marker : Nat
  inPurgatory : Bool
  payload : JVal

/-- Modelled from the spec: the per-DID store state, i.e. the main-index
record together with the optional plus-index entry. -/
structure DidState where
  main : MainRecord
  plus : Option JVal

/-- Modelled from the spec: errors of `do_single_update` (section 4.2). -/
inductive UpdErr where
  | invalidRecord
  | transientUnavailable

/-- Modelled from the spec: single-index store writes emitted by one
reconciliation. -/
inductive StoreWrite where
  | writeMain (r : MainRecord)
  | removePlus

/-- Modelled from the spec: the latest event of a list, by position
(deterministic tie-break). -/
def latestEvent : List ChainEvent → Option ChainEvent
  | [] => none
  | e :: es =>
    match latestEvent es with
    | none => some e
    | some m => if m.pos ≤ e.pos then some e else some m

/-- Modelled from the spec: `MetadataUpdater.do_single_update`
(`aquarius/events/metadata_updater.py`, absent from the excerpt), per
section 4.2: resolve the on-chain identifier (else `InvalidRecord`), query
the chain event source (`none` = unreachable, `TransientUnavailable`),
and if no event is newer than the last-processed marker succeed without
writes; otherwise apply the latest event (retirement sets the purgatory
flag and clears the plus entry, an update rewrites the mutable payload)
and advance the marker atomically with the content write. -/
def do_single_update (chain : Option (List ChainEvent)) (st : DidState) :
    Except UpdErr (DidState × List StoreWrite) :=
  match st.main.onchainId with
  | none => .error .invalidRecord
  | some _ =>
    match chain with
    | none => .error .transientUnavailable
    | some events =>
      match latestEvent (events.filter (fun e => st.main.marker < e.pos)) with
      | none => .ok (st, [])
      | some e =>
        if e.isRetire then
          let r := { st.main with inPurgatory := true, marker := e.pos }
          .ok (⟨r, none⟩,
            [.writeMain r] ++ (if st.plus.isSome then [.removePlus] else []))
        else
          let r := { st.main with payload := e.payload, marker := e.pos }
          .ok (⟨r, st.plus⟩, [.writeMain r])

/-! ## The whole API surface -/

/-- One call to the API layer: a handler together with its collaborators
and inputs. -/
inductive ApiCall where
  | assetsIds (listed : List (List (String × JVal)))
  | ddo (sanitize : JVal → JVal) (dao_get : String → GetOutcome) (did : String)
  | allDdos (sanitize : JVal → JVal) (listed : List JVal)
  | metadata (sanitize : JVal → JVal) (getMetaSvc : JVal → Option JVal)
      (dao_get : String → GetOutcome) (did : String)
  | query (dumps : JVal → String) (loads : String → Option JVal)
      (runQ : List (String × JVal) → Option (List JVal × Nat))
      (paginate : List JVal × Nat → Option JVal → JVal → JVal → JVal)
      (sanitize : JVal → JVal) (body : JVal)
  | validateLocal (isValidLocal : JVal → Bool)
      (listErrorsLocal : JVal → List JVal) (body : JVal)
  | validateRemote (getMetaSvc : JVal → Option (List (String × JVal)))
      (isValidRemote : JVal → Bool) (listErrorsRemote : JVal → List JVal)
      (body : JVal)
  | put (au : AuthCtx) (st : StoreCtx) (remote : String) (body : JVal)
      (did : String)
  | delete (au : AuthCtx) (st : StoreCtx) (remote : String) (body : JVal)
      (did : String)

/-- Dispatch of one API call to its handler. -/
def runApi : ApiCall → Except String Resp × List Eff
  | .assetsIds listed => (.ok (get_assets_ids listed), [])
  | .ddo sanitize dao_get did => (.ok (get_ddo sanitize dao_get did), [])
  | .allDdos sanitize listed => (.ok (get_asset_ddos sanitize listed), [])
  | .metadata sanitize getMetaSvc dao_get did =>
      (.ok (get_metadata sanitize getMetaSvc dao_get did), [])
  | .query dumps loads runQ paginate sanitize body =>
      es_query_ddo dumps loads runQ paginate sanitize body
  | .validateLocal isValidLocal listErrorsLocal body =>
      (validate isValidLocal listErrorsLocal body, [])
  | .validateRemote getMetaSvc isValidRemote listErrorsRemote body =>
      (validate_remote getMetaSvc isValidRemote listErrorsRemote body, [])
  | .put au st remote body did => update_ddo_info au st remote body did
  | .delete au st remote body did => delist_ddo au st remote body did

/-! ## Shared lemmas -/

theorem delistTryBlock_eq_updateTryBlock : delistTryBlock = updateTryBlock := rfl

theorem updateTryBlock_ne_unauthorized (st : StoreCtx) (did : String) :
    updateTryBlock st did ≠ (.ok unauthorized, []) := by
  unfold updateTryBlock
  split
  · simp [unauthorized]
  · split
    · simp [unauthorized]
    · split <;> simp [unauthorized]

/-! ## C1 -/

/-- C1 (counterexample): the claim says a DELETE from the loopback address
skips the adminAddress/signature checks exactly as PUT does; but for a
concrete loopback request with no `adminAddress`, `delist_ddo` answers 401
without reconciling while `update_ddo_info` proceeds into its `try` block. -/
theorem delete_loopback_not_bypassed_cex :
    delist_ddo ⟨fun _ => false, fun _ _ => none⟩
        ⟨fun _ => .exn, "oceandb", fun _ => true⟩
        "127.0.0.1" (.jobj [("k", .jstr "v")]) "did:op:abc"
      = (.ok unauthorized, []) ∧
    update_ddo_info ⟨fun _ => false, fun _ _ => none⟩
        ⟨fun _ => .exn, "oceandb", fun _ => true⟩
        "127.0.0.1" (.jobj [("k", .jstr "v")]) "did:op:abc"
      = (.ok ⟨404, .text "did:op:abc asset DID is not in OceanDB"⟩, []) :=
  ⟨rfl, rfl⟩

/-- C1 (amended): `delist_ddo` applies the adminAddress/signature checks
unconditionally — it never skips them for loopback callers; for every
remote address its behaviour equals that of `update_ddo_info` for a
non-loopback caller. -/
theorem delete_auth_equals_nonloopback_update (au : AuthCtx) (st : StoreCtx)
    (remote remote' : String) (body : JVal) (did : String)
    (h : remote' ≠ "127.0.0.1") :
    delist_ddo au st remote body did = update_ddo_info au st remote' body did := by
  simp only [delist_ddo, update_ddo_info, if_neg h,
    delistTryBlock_eq_updateTryBlock]

/-- C1 (witness for the amended theorem). -/
theorem delete_auth_equals_nonloopback_update_witness :
    delist_ddo ⟨fun _ => false, fun _ _ => none⟩
        ⟨fun _ => .exn, "idx", fun _ => true⟩
        "127.0.0.1" (.jobj [("k", .jstr "v")]) "did:op:x"
      = update_ddo_info ⟨fun _ => false, fun _ _ => none⟩
        ⟨fun _ => .exn, "idx", fun _ => true⟩
        "10.0.0.1" (.jobj [("k", .jstr "v")]) "did:op:x" :=
  delete_auth_equals_nonloopback_update _ _ _ _ _ _ (by decide)

/-! ## C3 -/

/-- C3: a non-loopback PUT whose `adminAddress` is missing or not permitted
is answered with the JSON 401 and triggers no effects at all: no
`MetadataUpdater` construction, no `do_single_update` call, hence any store
is left unchanged by the (empty) effect list. -/
theorem update_nonloopback_unpermitted_noop (au : AuthCtx) (st : StoreCtx)
    (remote : String) (body : JVal) (did : String)
    (hr : remote ≠ "127.0.0.1") (hb : truthy body ∧ body.isObj)
    (ha : getStrField body "adminAddress" = none ∨
      ∃ a, getStrField body "adminAddress" = some a ∧
        au.has_update_request_permission a = false) :
    update_ddo_info au st remote body did = (.ok unauthorized, []) ∧
      ∀ (σ : Type) (apply : Eff → σ → σ) (s : σ),
        runEffects apply (update_ddo_info au st remote body did).2 s = s := by
  have hmain : update_ddo_info au st remote body did = (.ok unauthorized, []) := by
    unfold update_ddo_info
    rw [if_neg (not_not_intro hb), if_neg hr]
    rcases ha with h | ⟨a, h, hp⟩
    · simp [h]
    · simp [h, hp]
  exact ⟨hmain, fun σ apply s => by rw [hmain]; rfl⟩

/-- C3 (witness). -/
theorem update_nonloopback_unpermitted_noop_witness :
    update_ddo_info ⟨fun _ => false, fun _ _ => none⟩
        ⟨fun _ => .exn, "idx", fun _ => true⟩
        "10.0.0.1" (.jobj [("adminAddress", .jstr "0xA")]) "did:op:x"
      = (.ok unauthorized, []) :=
  (update_nonloopback_unpermitted_noop ⟨fun _ => false, fun _ _ => none⟩
    ⟨fun _ => .exn, "idx", fun _ => true⟩ "10.0.0.1"
    (.jobj [("adminAddress", .jstr "0xA")]) "did:op:x" (by decide) (by decide)
    (.inr ⟨"0xA", rfl, rfl⟩)).1

/-! ## C7 -/

/-- C7: `GET /ddo/<did>` either returns the stored record, sanitized and
serialized as JSON with status 200, or — exactly when `dao.get` fails —
the 404 with the plain-text body `did ++ " asset DID is not in OceanDB"`. -/
theorem get_ddo_record_or_plaintext_404 (sanitize : JVal → JVal)
    (dao_get : String → GetOutcome) (did : String) :
    (∃ r, dao_get did = .ok r ∧
      get_ddo sanitize dao_get did = ⟨200, .json (sanitize r)⟩) ∨
    (dao_get did = .exn ∧
      get_ddo sanitize dao_get did =
        ⟨404, .text (did ++ " asset DID is not in OceanDB")⟩) := by
  unfold get_ddo
  cases h : dao_get did with
  | ok r => exact .inl ⟨r, rfl, rfl⟩
  | exn => exact .inr ⟨rfl, rfl⟩

/-! ## C2 -/

/-- C2: for a (well-formed) non-loopback PUT, the write is authorized —
i.e. the handler does not answer the JSON 401 — exactly when the supplied
`adminAddress` is permitted by the allow-list check and the supplied
signature recovers, case-insensitively, to that same address; every other
situation (address missing or falsy, address not permitted, signature
missing or falsy, recovery failure, or a case-insensitive mismatch) yields
the 401. -/
theorem update_nonloopback_auth_iff (au : AuthCtx) (st : StoreCtx)
    (remote : String) (body : JVal) (did : String)
    (hr : remote ≠ "127.0.0.1") (hb : truthy body ∧ body.isObj) :
    update_ddo_info au st remote body did ≠ (.ok unauthorized, []) ↔
      ∃ address, getStrField body "adminAddress" = some address ∧
        au.has_update_request_permission address = true ∧
        ∃ sig recovered, getStrField body "signature" = some sig ∧
          au.get_signer_address address sig = some recovered ∧
          recovered.toLower = address.toLower := by
  unfold update_ddo_info
  rw [if_neg (not_not_intro hb), if_neg hr]
  cases hA : getStrField body "adminAddress" with
  | none => simp
  | some address =>
    dsimp only
    by_cases hp : au.has_update_request_permission address = true
    · rw [if_neg (not_not_intro hp)]
      cases hS : (getStrField body "signature").bind
          (au.get_signer_address address) with
      | none =>
        refine iff_of_false (fun h => h rfl) ?_
        rintro ⟨a, ha, hperm, sig, recovered, hsig, hrec, _⟩
        obtain rfl : address = a := by simpa using ha
        rw [hsig, Option.some_bind, hrec] at hS
        cases hS
      | some recovered =>
        dsimp only
        by_cases hL : recovered.toLower = address.toLower
        · rw [if_pos hL]
          refine iff_of_true (updateTryBlock_ne_unauthorized st did) ?_
          obtain ⟨sig, hsig, hrec⟩ := Option.bind_eq_some.mp hS
          exact ⟨address, rfl, hp, sig, recovered, hsig, hrec, hL⟩
        · rw [if_neg hL]
          refine iff_of_false (fun h => h rfl) ?_
          rintro ⟨a, ha, hperm, sig, rec', hsig, hrec, hlow⟩
          obtain rfl : address = a := by simpa using ha
          obtain ⟨sig', hsig', hrec'⟩ := Option.bind_eq_some.mp hS
          rw [hsig] at hsig'
          obtain rfl : sig = sig' := by simpa using hsig'
          rw [hrec] at hrec'
          obtain rfl : rec' = recovered := by simpa using hrec'
          exact hL hlow
    · rw [if_pos hp]
      refine iff_of_false (fun h => h rfl) ?_
      rintro ⟨a, ha, hperm, _⟩
      obtain rfl : address = a := by simpa using ha
      exact hp hperm

/-- C2 (witness): a permitted address whose signature recovers to itself is
authorized. -/
theorem update_nonloopback_auth_iff_witness :
    update_ddo_info ⟨fun a => a == "0xAbC", fun a _ => some a⟩
        ⟨fun _ => .exn, "idx", fun _ => true⟩ "10.0.0.1"
        (.jobj [("adminAddress", .jstr "0xAbC"), ("signature", .jstr "sig")])
        "did:op:x"
      ≠ (.ok unauthorized, []) :=
  (update_nonloopback_auth_iff ⟨fun a => a == "0xAbC", fun a _ => some a⟩
      ⟨fun _ => .exn, "idx", fun _ => true⟩ "10.0.0.1"
      (.jobj [("adminAddress", .jstr "0xAbC"), ("signature", .jstr "sig")])
      "did:op:x" (by decide) (by decide)).mpr
    ⟨"0xAbC", rfl, rfl, "sig", "0xAbC", rfl, rfl, rfl⟩

/-! ## C5 -/

/-- C5: `POST /ddo/validate-remote` on a dict body answers 400 with the
invalid-format message when the body has no `service` key or when the
metadata entry extracted from the services has no `attributes` key;
otherwise it validates the `attributes` sub-object remotely and returns
JSON `true` on success or the validator error list on failure. -/
theorem validate_remote_shape_and_result
    (getMetaSvc : JVal → Option (List (String × JVal)))
    (isValidRemote : JVal → Bool) (listErrorsRemote : JVal → List JVal)
    (fs : List (String × JVal)) :
    (lookup fs "service" = none →
      validate_remote getMetaSvc isValidRemote listErrorsRemote (.jobj fs) =
        .ok ⟨400, .json (.jobj [("message", .jstr "Invalid DDO format.")])⟩) ∧
    (∀ sv mfs, lookup fs "service" = some sv → getMetaSvc sv = some mfs →
      (lookup mfs "attributes" = none →
        validate_remote getMetaSvc isValidRemote listErrorsRemote (.jobj fs) =
          .ok ⟨400, .json (.jobj [("message", .jstr "Invalid DDO format.")])⟩) ∧
      (∀ attrs, lookup mfs "attributes" = some attrs →
        validate_remote getMetaSvc isValidRemote listErrorsRemote (.jobj fs) =
          if isValidRemote attrs then .ok ⟨200, .json (.jbool true)⟩
          else .ok ⟨200, .json (.jarr (listErrorsRemote attrs))⟩)) := by
  refine ⟨fun h => by simp [validate_remote, h], fun sv mfs hsv hm => ⟨?_, ?_⟩⟩
  · intro h
    simp [validate_remote, hsv, hm, h]
  · intro attrs h
    simp [validate_remote, hsv, hm, h]

/-- C5 (witness): a body with a metadata service carrying `attributes` that
the remote validator accepts is answered with JSON `true`. -/
theorem validate_remote_shape_and_result_witness :
    validate_remote (fun _ => some [("attributes", .jobj [])]) (fun _ => true)
        (fun _ => []) (.jobj [("service", .jarr [])]) =
      .ok ⟨200, .json (.jbool true)⟩ := by
  have h := ((validate_remote_shape_and_result
      (fun _ => some [("attributes", .jobj [])]) (fun _ => true)
      (fun _ => []) [("service", .jarr [])]).2
      (.jarr []) [("attributes", .jobj [])] rfl rfl).2 (.jobj []) rfl
  simpa using h

/-! ## C6 -/

theorem ok_pair_inj {x r : Resp} {l effs : List Eff}
    (h : ((.ok x : Except String Resp), l) = (.ok r, effs)) : r = x := by
  injection h with h1 h2
  injection h1 with h1
  exact h1.symm

theorem err_pair_ne_ok {e : String} {r : Resp} {l effs : List Eff}
    (h : ((.error e : Except String Resp), l) = (.ok r, effs)) : False := by
  injection h with h1 h2
  cases h1

/-- C6 (counterexample): the claim says the failure responses of
`PUT /ddo/update/<did>` are JSON, but the exception path of its `try` block
(assets.py lines 329-331) produces a plain-text 404 body. -/
theorem put_failure_response_plaintext_cex :
    runApi (.put ⟨fun _ => false, fun _ _ => none⟩
        ⟨fun _ => .exn, "idx", fun _ => true⟩
        "127.0.0.1" (.jobj [("k", .jstr "v")]) "did:op:1")
      = (.ok ⟨404, .text "did:op:1 asset DID is not in OceanDB"⟩, []) ∧
    (∀ v : JVal, RBody.text "did:op:1 asset DID is not in OceanDB" ≠ .json v) :=
  ⟨rfl, fun _ h => RBody.noConfusion h⟩

/-- C6 (amended): every response produced by a handler of the API layer has
a JSON body, except for the plain-text 404 bodies
`"<did> asset DID is not in OceanDB"`, which are produced by
`GET /ddo/<did>`, `GET /metadata/<did>` and the exception paths of
`PUT /ddo/update/<did>` and `DELETE /ddo/<did>`. -/
theorem api_text_bodies_are_notfound_404s (call : ApiCall) (r : Resp)
    (effs : List Eff) (h : runApi call = (.ok r, effs)) (s : String)
    (hbody : r.body = .text s) :
    r.status = 404 ∧ ∃ did, s = did ++ " asset DID is not in OceanDB" := by
  have tryCase : ∀ (st : StoreCtx) (did : String) (effs' : List Eff),
      updateTryBlock st did = (.ok r, effs') →
      r.status = 404 ∧ ∃ d, s = d ++ " asset DID is not in OceanDB" := by
    intro st did effs' h'
    unfold updateTryBlock at h'
    split at h'
    · obtain rfl := ok_pair_inj h'
      simp only at hbody
      exact ⟨rfl, did, by simpa using hbody.symm⟩
    · split at h'
      · obtain rfl := ok_pair_inj h'
        simp at hbody
      · split at h'
        · obtain rfl := ok_pair_inj h'
          simp at hbody
        · obtain rfl := ok_pair_inj h'
          simp only at hbody
          exact ⟨rfl, did, by simpa using hbody.symm⟩
  cases call with
  | assetsIds listed =>
    simp only [runApi, get_assets_ids] at h
    obtain rfl := ok_pair_inj h
    simp at hbody
  | ddo sanitize dao_get did =>
    simp only [runApi] at h
    unfold get_ddo at h
    split at h
    · obtain rfl := ok_pair_inj h
      simp at hbody
    · obtain rfl := ok_pair_inj h
      simp only at hbody
      exact ⟨rfl, did, by simpa using hbody.symm⟩
  | allDdos sanitize listed =>
    simp only [runApi, get_asset_ddos] at h
    obtain rfl := ok_pair_inj h
    simp at hbody
  | metadata sanitize getMetaSvc dao_get did =>
    simp only [runApi] at h
    unfold get_metadata at h
    split at h
    · obtain rfl := ok_pair_inj h
      simp only at hbody
      exact ⟨rfl, did, by simpa using hbody.symm⟩
    · split at h
      · split at h
        · obtain rfl := ok_pair_inj h
          simp only at hbody
          exact ⟨rfl, did, by simpa using hbody.symm⟩
        · split at h
          · obtain rfl := ok_pair_inj h
            simp only at hbody
            exact ⟨rfl, did, by simpa using hbody.symm⟩
          · obtain rfl := ok_pair_inj h
            simp at hbody
      · obtain rfl := ok_pair_inj h
        simp only at hbody
        exact ⟨rfl, did, by simpa using hbody.symm⟩
  | query dumps loads runQ paginate sanitize body =>
    simp only [runApi] at h
    unfold es_query_ddo at h
    split at h
    · split at h
      · exact absurd h err_pair_ne_ok
      · exact absurd h err_pair_ne_ok
      · split at h
        · exact absurd h err_pair_ne_ok
        · split at h
          · exact absurd h err_pair_ne_ok
          · obtain rfl := ok_pair_inj h
            simp at hbody
    · exact absurd h err_pair_ne_ok
  | validateLocal isValidLocal listErrorsLocal body =>
    simp only [runApi] at h
    unfold validate at h
    split at h
    · exact absurd h err_pair_ne_ok
    · split at h
      · obtain rfl := ok_pair_inj h
        simp at hbody
      · obtain rfl := ok_pair_inj h
        simp at hbody
  | validateRemote getMetaSvc isValidRemote listErrorsRemote body =>
    simp only [runApi] at h
    unfold validate_remote at h
    split at h
    · split at h
      · obtain rfl := ok_pair_inj h
        simp at hbody
      · split at h
        · exact absurd h err_pair_ne_ok
        · split at h
          · obtain rfl := ok_pair_inj h
            simp at hbody
          · split at h
            · obtain rfl := ok_pair_inj h
              simp at hbody
            · obtain rfl := ok_pair_inj h
              simp at hbody
    · exact absurd h err_pair_ne_ok
  | put au st remote body did =>
    simp only [runApi] at h
    unfold update_ddo_info at h
    split at h
    · exact absurd h err_pair_ne_ok
    · split at h
      · exact tryCase _ _ _ h
      · split at h
        · obtain rfl := ok_pair_inj h
          simp [unauthorized] at hbody
        · split at h
          · obtain rfl := ok_pair_inj h
            simp [unauthorized] at hbody
          · split at h
            · obtain rfl := ok_pair_inj h
              simp [unauthorized] at hbody
            · split at h
              · exact tryCase _ _ _ h
              · obtain rfl := ok_pair_inj h
                simp [unauthorized] at hbody
  | delete au st remote body did =>
    simp only [runApi] at h
    unfold delist_ddo at h
    rw [delistTryBlock_eq_updateTryBlock] at h
    split at h
    · exact absurd h err_pair_ne_ok
    · split at h
      · obtain rfl := ok_pair_inj h
        simp [unauthorized] at hbody
      · split at h
        · obtain rfl := ok_pair_inj h
          simp [unauthorized] at hbody
        · split at h
          · obtain rfl := ok_pair_inj h
            simp [unauthorized] at hbody
          · split at h
            · exact tryCase _ _ _ h
            · obtain rfl := ok_pair_inj h
              simp [unauthorized] at hbody

/-- C6 (witness for the amended theorem): applied to the plain-text 404 of
`GET /ddo/<did>` on an unknown DID. -/
theorem api_text_bodies_are_notfound_404s_witness :
    (404 : Nat) = 404 ∧
      ∃ did, ("did:op:9 asset DID is not in OceanDB" : String) =
        did ++ " asset DID is not in OceanDB" :=
  api_text_bodies_are_notfound_404s
    (.ddo (fun v => v) (fun _ => .exn) "did:op:9")
    ⟨404, .text "did:op:9 asset DID is not in OceanDB"⟩ [] rfl
    "did:op:9 asset DID is not in OceanDB" rfl

/-! ## Dictionary lemmas for the query handler -/

theorem lookup_append_single (fs : List (String × JVal)) (k k' : String)
    (v : JVal) :
    lookup (fs ++ [(k, v)]) k' =
      match lookup fs k' with
      | some u => some u
      | none => if k == k' then some v else none := by
  unfold lookup
  cases hf : List.find? (fun p => p.1 == k') fs with
  | some u => simp [List.find?_append, hf]
  | none =>
    simp only [List.find?_append, hf, Option.none_or, Option.map_none]
    by_cases h : k == k' <;> simp [List.find?, h]

theorem lookup_cons (p : String × JVal) (fs : List (String × JVal))
    (k' : String) :
    lookup (p :: fs) k' = if p.1 == k' then some p.2 else lookup fs k' := by
  unfold lookup
  rw [List.find?_cons]
  cases hp : (p.1 == k') <;> simp [hp]

theorem lookup_map_replace (fs : List (String × JVal)) (k k' : String)
    (v : JVal) (h : (k == k') = false) :
    lookup (fs.map (fun p => if p.1 == k then (k, v) else p)) k' =
      lookup fs k' := by
  induction fs with
  | nil => rfl
  | cons p fs ih =>
    rw [List.map_cons]
    by_cases hp : p.1 == k
    · have h1 : p.1 = k := by simpa using hp
      rw [if_pos hp, lookup_cons, lookup_cons,
        if_neg (by simp [h] : ¬ (((k, v).1 == k') = true)),
        if_neg (by simp [h1, h] : ¬ ((p.1 == k') = true))]
      exact ih
    · rw [if_neg hp, lookup_cons, lookup_cons]
      by_cases hp' : (p.1 == k') = true
      · rw [if_pos hp', if_pos hp']
      · rw [if_neg hp', if_neg hp']
        exact ih

theorem lookup_setKey_ne (fs : List (String × JVal)) (k k' : String)
    (v : JVal) (h : (k == k') = false) :
    lookup (setKey fs k v) k' = lookup fs k' := by
  unfold setKey
  split
  · exact lookup_map_replace fs k k' v h
  · rw [lookup_append_single, h]
    cases lookup fs k' <;> rfl

theorem lookup_setdefault_self (fs : List (String × JVal)) (k : String)
    (v : JVal) :
    lookup (setdefault fs k v) k = some ((lookup fs k).getD v) := by
  unfold setdefault
  split
  · next h =>
    obtain ⟨u, hu⟩ := Option.isSome_iff_exists.mp h
    rw [hu]; rfl
  · next h =>
    rw [lookup_append_single]
    have : lookup fs k = none := Option.not_isSome_iff_eq_none.mp h
    rw [this]
    simp

theorem lookup_setdefault_ne (fs : List (String × JVal)) (k k' : String)
    (v : JVal) (h : (k == k') = false) :
    lookup (setdefault fs k v) k' = lookup fs k' := by
  unfold setdefault
  split
  · rfl
  · rw [lookup_append_single, h]
    cases lookup fs k' <;> rfl

/-! ## C9 -/

/-- C9: when the query pipeline reaches the store query, the data dict
passed on has `page` defaulted to 1 and `offset` defaulted to 100, while
caller-supplied values for these keys are kept unchanged. -/
theorem es_query_pagination_defaults (dumps : JVal → String)
    (loads : String → Option JVal) (data : List (String × JVal)) (q : JVal)
    (final : List (String × JVal))
    (h : esQueryData dumps loads data q = some final) :
    lookup final "page" = some ((lookup data "page").getD (.jnum 1)) ∧
    lookup final "offset" = some ((lookup data "offset").getD (.jnum 100)) := by
  unfold esQueryData at h
  cases hl : loads (escapeDidsStr (dumps q)) with
  | none => rw [hl] at h; cases h
  | some q' =>
    rw [hl] at h
    obtain rfl : setdefault (setdefault (setKey data "query" q') "page"
        (.jnum 1)) "offset" (.jnum 100) = final := by simpa using h
    constructor
    · rw [lookup_setdefault_ne _ _ _ _ (by decide),
        lookup_setdefault_self,
        lookup_setKey_ne _ _ _ _ (by decide)]
    · rw [lookup_setdefault_self,
        lookup_setdefault_ne _ _ _ _ (by decide),
        lookup_setKey_ne _ _ _ _ (by decide)]

/-- C9 (witness). -/
theorem es_query_pagination_defaults_witness :
    lookup [("query", .jnull), ("page", .jnum 7), ("offset", .jnum 100)]
        "page" = some ((lookup [("query", .jobj []), ("page", .jnum 7)]
            "page").getD (.jnum 1)) ∧
    lookup [("query", .jnull), ("page", .jnum 7), ("offset", .jnum 100)]
        "offset" = some ((lookup [("query", .jobj []), ("page", .jnum 7)]
            "offset").getD (.jnum 100)) :=
  es_query_pagination_defaults (fun _ => "") (fun _ => some .jnull)
    [("query", .jobj []), ("page", .jnum 7)] (.jobj []) _ rfl

/-! ## C8 -/

/-- C8: a `POST /ddo/query` body whose `query` object has no `query_string`
key fails (uncaught `AssertionError`) before any store query runs and
produces no 200 result; with `query_string` present the handler proceeds to
the store query on the escaped-and-defaulted data and, when the store
answers, returns the 200 paginated JSON response. -/
theorem es_query_requires_query_string (dumps : JVal → String)
    (loads : String → Option JVal)
    (runQ : List (String × JVal) → Option (List JVal × Nat))
    (paginate : List JVal × Nat → Option JVal → JVal → JVal → JVal)
    (sanitize : JVal → JVal) (data qfs : List (String × JVal))
    (hq : lookup data "query" = some (.jobj qfs)) :
    (lookup qfs "query_string" = none →
      es_query_ddo dumps loads runQ paginate sanitize (.jobj data) =
        (.error "No query_string found.", [])) ∧
    (∀ v, lookup qfs "query_string" = some v →
      ∀ final, esQueryData dumps loads data (.jobj qfs) = some final →
        (es_query_ddo dumps loads runQ paginate sanitize (.jobj data)).2 =
          [Eff.runEsQuery final] ∧
        ∀ res, runQ final = some res →
          (es_query_ddo dumps loads runQ paginate sanitize (.jobj data)).1 =
            .ok ⟨200, .json (paginate (res.1.map sanitize, res.2)
              (lookup final "sort") ((lookup final "offset").getD .jnull)
              ((lookup final "page").getD .jnull))⟩) := by
  constructor
  · intro hnone
    unfold es_query_ddo
    simp [hq, jContainsKey, hnone]
  · intro v hv final hfinal
    unfold es_query_ddo
    simp only [hq, Option.getD_some, jContainsKey, hv, Option.isSome_some,
      hfinal]
    constructor
    · cases hr : runQ final <;> simp
    · intro res hres
      rw [hres]

/-- C8 (witness): a query object without `query_string` is rejected before
the store query. -/
theorem es_query_requires_query_string_witness :
    es_query_ddo (fun _ => "") (fun _ => some .jnull) (fun _ => some ([], 0))
        (fun _ _ _ _ => .jnull) (fun v => v) (.jobj [("query", .jobj [])]) =
      (.error "No query_string found.", []) :=
  (es_query_requires_query_string (fun _ => "") (fun _ => some .jnull)
    (fun _ => some ([], 0)) (fun _ _ _ _ => .jnull) (fun v => v)
    [("query", .jobj [])] [] rfl).1 rfl

/-! ## C4 -/

theorem latestEvent_eq_none (l : List ChainEvent) (h : latestEvent l = none) :
    l = [] := by
  cases l with
  | nil => rfl
  | cons b bs =>
    exfalso
    simp only [latestEvent] at h
    cases hm : latestEvent bs with
    | none => rw [hm] at h; dsimp only at h; cases h
    | some m => rw [hm] at h; dsimp only at h; split at h <;> cases h

theorem latestEvent_le (l : List ChainEvent) (e : ChainEvent)
    (h : latestEvent l = some e) : e ∈ l ∧ ∀ x ∈ l, x.pos ≤ e.pos := by
  induction l generalizing e with
  | nil => cases h
  | cons a as ih =>
    simp only [latestEvent] at h
    cases hm : latestEvent as with
    | none =>
      rw [hm] at h
      dsimp only at h
      obtain rfl : a = e := by simpa using h
      refine ⟨List.mem_cons_self _ _, ?_⟩
      intro x hx
      rcases List.mem_cons.mp hx with rfl | hx
      · exact le_rfl
      · rw [latestEvent_eq_none as hm] at hx
        cases hx
    | some m =>
      rw [hm] at h
      dsimp only at h
      obtain ⟨hmem, hle⟩ := ih m hm
      by_cases hc : m.pos ≤ a.pos
      · rw [if_pos hc] at h
        obtain rfl : a = e := by simpa using h
        refine ⟨List.mem_cons_self _ _, ?_⟩
        intro x hx
        rcases List.mem_cons.mp hx with rfl | hx
        · exact le_rfl
        · exact le_trans (hle x hx) hc
      · rw [if_neg hc] at h
        obtain rfl : m = e := by simpa using h
        refine ⟨List.mem_cons_of_mem _ hmem, ?_⟩
        intro x hx
        rcases List.mem_cons.mp hx with rfl | hx
        · exact le_of_lt (lt_of_not_le hc)
        · exact hle x hx

/-- C4: (spec-modelled) idempotence of `do_single_update`.  First, when no
chain event is newer than the record marker, the call is a no-op: it
succeeds, performs no store writes and leaves the state unchanged.  Second,
after any successful application, an immediately repeated call with the
same chain events is such a no-op (the last-processed marker has advanced
past every event). -/
theorem do_single_update_idempotent :
    (∀ (events : List ChainEvent) (st : DidState),
      st.main.onchainId.isSome = true →
      (∀ e ∈ events, e.pos ≤ st.main.marker) →
      do_single_update (some events) st = .ok (st, [])) ∧
    (∀ (events : List ChainEvent) (st st' : DidState) (ws : List StoreWrite),
      do_single_update (some events) st = .ok (st', ws) →
      do_single_update (some events) st' = .ok (st', [])) := by
  have noop : ∀ (events : List ChainEvent) (st : DidState),
      st.main.onchainId.isSome = true →
      (∀ e ∈ events, e.pos ≤ st.main.marker) →
      do_single_update (some events) st = .ok (st, []) := by
    intro events st hid hle
    obtain ⟨i, hi⟩ := Option.isSome_iff_exists.mp hid
    have hfil : events.filter (fun e => st.main.marker < e.pos) = [] := by
      rw [List.filter_eq_nil_iff]
      intro e he
      simp only [decide_eq_true_eq, not_lt]
      exact hle e he
    unfold do_single_update
    rw [hi]
    dsimp only
    rw [hfil]
    rfl
  refine ⟨noop, ?_⟩
  intro events st st' ws h
  unfold do_single_update at h
  cases hi : st.main.onchainId with
  | none => rw [hi] at h; dsimp only at h; cases h
  | some i =>
    rw [hi] at h
    dsimp only at h
    cases hl : latestEvent (events.filter (fun e => st.main.marker < e.pos)) with
    | none =>
      rw [hl] at h
      dsimp only at h
      rw [Except.ok.injEq, Prod.mk.injEq] at h
      obtain ⟨rfl, rfl⟩ := h
      unfold do_single_update
      rw [hi]
      dsimp only
      rw [hl]
    | some e =>
      rw [hl] at h
      dsimp only at h
      obtain ⟨hmem, hle⟩ := latestEvent_le _ _ hl
      have hmarker : st.main.marker < e.pos := by
        have := (List.mem_filter.mp hmem).2
        simpa using this
      have hmax : ∀ x ∈ events, x.pos ≤ e.pos := by
        intro x hx
        by_cases hgt : st.main.marker < x.pos
        · exact hle x (List.mem_filter.mpr ⟨hx, by simpa using hgt⟩)
        · exact le_of_lt (lt_of_le_of_lt (le_of_not_lt hgt) hmarker)
      split at h
      · rw [Except.ok.injEq, Prod.mk.injEq] at h
        obtain ⟨rfl, rfl⟩ := h
        exact noop events _ (by simp [hi]) (fun x hx => hmax x hx)
      · rw [Except.ok.injEq, Prod.mk.injEq] at h
        obtain ⟨rfl, rfl⟩ := h
        exact noop events _ (by simp [hi]) (fun x hx => hmax x hx)

/-- C4 (witness): a record whose marker already covers the only chain event
is reconciled as a no-op, and a repetition of a successful call is a no-op. -/
theorem do_single_update_idempotent_witness :
    do_single_update (some [⟨5, false, .jnull⟩])
        ⟨⟨some "0xA", 5, false, .jnull⟩, none⟩ =
      .ok (⟨⟨some "0xA", 5, false, .jnull⟩, none⟩, []) ∧
    do_single_update (some [⟨5, false, .jnull⟩])
        ⟨⟨some "0xA", 5, false, .jnull⟩, none⟩ =
      .ok (⟨⟨some "0xA", 5, false, .jnull⟩, none⟩, []) :=
  ⟨do_single_update_idempotent.1 [⟨5, false, .jnull⟩]
      ⟨⟨some "0xA", 5, false, .jnull⟩, none⟩ rfl
      (by intro e he; rw [List.mem_singleton.mp he]),
    do_single_update_idempotent.2 [⟨5, false, .jnull⟩]
      ⟨⟨some "0xA", 5, false, .jnull⟩, none⟩
      ⟨⟨some "0xA", 5, false, .jnull⟩, none⟩ [] rfl⟩

/-! ## C10: the DID-escaping rewrite -/

theorem replaceList_nil (pat rep : List Char) : replaceList pat rep [] = [] := by
  simp [replaceList]

theorem replaceList_cons (pat rep : List Char) (c : Char) (cs : List Char) :
    replaceList pat rep (c :: cs) =
      if pat <+: (c :: cs) then
        rep ++ replaceList pat rep (List.drop (pat.length - 1) cs)
      else c :: replaceList pat rep cs := by
  rw [replaceList]

theorem unesc_esc_chunk (m : List Char) :
    replaceList esc_did_str did_str (esc_did_str ++ m) =
      did_str ++ replaceList esc_did_str did_str m := by
  have he : esc_did_str ++ m =
      'd' :: 'i' :: 'd' :: '\\' :: '\\' :: ':' :: 'o' :: 'p' :: '\\' :: '\\' :: ':' :: m := rfl
  rw [he, replaceList_cons, if_pos ⟨m, rfl⟩]
  have hd : List.drop (esc_did_str.length - 1)
      ('i' :: 'd' :: '\\' :: '\\' :: ':' :: 'o' :: 'p' :: '\\' :: '\\' :: ':' :: m) = m := rfl
  rw [hd]

theorem unesc_did_chunk (m : List Char) :
    replaceList esc_did_str did_str (did_str ++ m) =
      did_str ++ replaceList esc_did_str did_str m := by
  have he : did_str ++ m = 'd' :: 'i' :: 'd' :: ':' :: 'o' :: 'p' :: ':' :: m := rfl
  rw [he]
  rw [replaceList_cons, if_neg (by simp [esc_did_str, List.cons_prefix_cons])]
  rw [replaceList_cons, if_neg (by simp [esc_did_str, List.cons_prefix_cons])]
  rw [replaceList_cons, if_neg (by simp [esc_did_str, List.cons_prefix_cons])]
  rw [replaceList_cons, if_neg (by simp [esc_did_str, List.cons_prefix_cons])]
  rw [replaceList_cons, if_neg (by simp [esc_did_str, List.cons_prefix_cons])]
  rw [replaceList_cons, if_neg (by simp [esc_did_str, List.cons_prefix_cons])]
  rw [replaceList_cons, if_neg (by simp [esc_did_str, List.cons_prefix_cons])]
  rfl

theorem esc_did_chunk (m : List Char) :
    replaceList did_str esc_did_str (did_str ++ m) =
      esc_did_str ++ replaceList did_str esc_did_str m := by
  have he : did_str ++ m = 'd' :: 'i' :: 'd' :: ':' :: 'o' :: 'p' :: ':' :: m := rfl
  rw [he, replaceList_cons, if_pos ⟨m, rfl⟩]
  have hd : List.drop (did_str.length - 1)
      ('i' :: 'd' :: ':' :: 'o' :: 'p' :: ':' :: m) = m := rfl
  rw [hd]

theorem esc_esc_chunk (m : List Char) :
    replaceList did_str esc_did_str (esc_did_str ++ m) =
      esc_did_str ++ replaceList did_str esc_did_str m := by
  have he : esc_did_str ++ m =
      'd' :: 'i' :: 'd' :: '\\' :: '\\' :: ':' :: 'o' :: 'p' :: '\\' :: '\\' :: ':' :: m := rfl
  rw [he]
  rw [replaceList_cons, if_neg (by simp [did_str, List.cons_prefix_cons])]
  rw [replaceList_cons, if_neg (by simp [did_str, List.cons_prefix_cons])]
  rw [replaceList_cons, if_neg (by simp [did_str, List.cons_prefix_cons])]
  rw [replaceList_cons, if_neg (by simp [did_str, List.cons_prefix_cons])]
  rw [replaceList_cons, if_neg (by simp [did_str, List.cons_prefix_cons])]
  rw [replaceList_cons, if_neg (by simp [did_str, List.cons_prefix_cons])]
  rw [replaceList_cons, if_neg (by simp [did_str, List.cons_prefix_cons])]
  rw [replaceList_cons, if_neg (by simp [did_str, List.cons_prefix_cons])]
  rw [replaceList_cons, if_neg (by simp [did_str, List.cons_prefix_cons])]
  rw [replaceList_cons, if_neg (by simp [did_str, List.cons_prefix_cons])]
  rw [replaceList_cons, if_neg (by simp [did_str, List.cons_prefix_cons])]
  rfl

theorem replace_force_lit (pat rep : List Char) (c : Char) (w x : List Char)
    (hr : ∀ m : List Char, ¬ ((c :: w) <+: (rep ++ m)))
    (h : (c :: w) <+: replaceList pat rep x) :
    ∃ x', x = c :: x' ∧ w <+: replaceList pat rep x' := by
  cases x with
  | nil =>
    rw [replaceList_nil] at h
    exact absurd (List.prefix_nil.mp h) (by simp)
  | cons a as =>
    rw [replaceList_cons] at h
    by_cases hg : pat <+: (a :: as)
    · rw [if_pos hg] at h
      exact absurd h (hr _)
    · rw [if_neg hg] at h
      obtain ⟨hc, hw⟩ := List.cons_prefix_cons.mp h
      exact ⟨as, by rw [hc], hw⟩

theorem force_unesc_didTail (x : List Char)
    (h : ['i', 'd', ':', 'o', 'p', ':'] <+: replaceList esc_did_str did_str x) :
    ['i', 'd', ':', 'o', 'p', ':'] <+: x := by
  obtain ⟨x1, rfl, h1⟩ := replace_force_lit esc_did_str did_str 'i'
    ['d', ':', 'o', 'p', ':'] x
    (fun m => by simp [did_str, List.cons_prefix_cons]) h
  obtain ⟨x2, rfl, h2⟩ := replace_force_lit esc_did_str did_str 'd'
    [':', 'o', 'p', ':'] x1
    (fun m => by simp [did_str, List.cons_prefix_cons]) h1
  obtain ⟨x3, rfl, h3⟩ := replace_force_lit esc_did_str did_str ':'
    ['o', 'p', ':'] x2
    (fun m => by simp [did_str, List.cons_prefix_cons]) h2
  obtain ⟨x4, rfl, h4⟩ := replace_force_lit esc_did_str did_str 'o'
    ['p', ':'] x3
    (fun m => by simp [did_str, List.cons_prefix_cons]) h3
  obtain ⟨x5, rfl, h5⟩ := replace_force_lit esc_did_str did_str 'p'
    [':'] x4
    (fun m => by simp [did_str, List.cons_prefix_cons]) h4
  obtain ⟨x6, rfl, h6⟩ := replace_force_lit esc_did_str did_str ':'
    [] x5
    (fun m => by simp [did_str, List.cons_prefix_cons]) h5
  exact ⟨x6, rfl⟩

theorem force_unesc_escTail (x : List Char)
    (h : ['i', 'd', '\\', '\\', ':', 'o', 'p', '\\', '\\', ':'] <+:
      replaceList esc_did_str did_str x) :
    ['i', 'd', '\\', '\\', ':', 'o', 'p', '\\', '\\', ':'] <+: x := by
  obtain ⟨x1, rfl, h1⟩ := replace_force_lit esc_did_str did_str 'i'
    ['d', '\\', '\\', ':', 'o', 'p', '\\', '\\', ':'] x
    (fun m => by simp [did_str, List.cons_prefix_cons]) h
  obtain ⟨x2, rfl, h2⟩ := replace_force_lit esc_did_str did_str 'd'
    ['\\', '\\', ':', 'o', 'p', '\\', '\\', ':'] x1
    (fun m => by simp [did_str, List.cons_prefix_cons]) h1
  obtain ⟨x3, rfl, h3⟩ := replace_force_lit esc_did_str did_str '\\'
    ['\\', ':', 'o', 'p', '\\', '\\', ':'] x2
    (fun m => by simp [did_str, List.cons_prefix_cons]) h2
  obtain ⟨x4, rfl, h4⟩ := replace_force_lit esc_did_str did_str '\\'
    [':', 'o', 'p', '\\', '\\', ':'] x3
    (fun m => by simp [did_str, List.cons_prefix_cons]) h3
  obtain ⟨x5, rfl, h5⟩ := replace_force_lit esc_did_str did_str ':'
    ['o', 'p', '\\', '\\', ':'] x4
    (fun m => by simp [did_str, List.cons_prefix_cons]) h4
  obtain ⟨x6, rfl, h6⟩ := replace_force_lit esc_did_str did_str 'o'
    ['p', '\\', '\\', ':'] x5
    (fun m => by simp [did_str, List.cons_prefix_cons]) h5
  obtain ⟨x7, rfl, h7⟩ := replace_force_lit esc_did_str did_str 'p'
    ['\\', '\\', ':'] x6
    (fun m => by simp [did_str, List.cons_prefix_cons]) h6
  obtain ⟨x8, rfl, h8⟩ := replace_force_lit esc_did_str did_str '\\'
    ['\\', ':'] x7
    (fun m => by simp [did_str, List.cons_prefix_cons]) h7
  obtain ⟨x9, rfl, h9⟩ := replace_force_lit esc_did_str did_str '\\'
    [':'] x8
    (fun m => by simp [did_str, List.cons_prefix_cons]) h8
  obtain ⟨x10, rfl, h10⟩ := replace_force_lit esc_did_str did_str ':'
    [] x9
    (fun m => by simp [did_str, List.cons_prefix_cons]) h9
  exact ⟨x10, rfl⟩

theorem force_esc_escTail (x : List Char)
    (h : ['i', 'd', '\\', '\\', ':', 'o', 'p', '\\', '\\', ':'] <+:
      replaceList did_str esc_did_str x) :
    ['i', 'd', '\\', '\\', ':', 'o', 'p', '\\', '\\', ':'] <+: x := by
  obtain ⟨x1, rfl, h1⟩ := replace_force_lit did_str esc_did_str 'i'
    ['d', '\\', '\\', ':', 'o', 'p', '\\', '\\', ':'] x
    (fun m => by simp [esc_did_str, List.cons_prefix_cons]) h
  obtain ⟨x2, rfl, h2⟩ := replace_force_lit did_str esc_did_str 'd'
    ['\\', '\\', ':', 'o', 'p', '\\', '\\', ':'] x1
    (fun m => by simp [esc_did_str, List.cons_prefix_cons]) h1
  obtain ⟨x3, rfl, h3⟩ := replace_force_lit did_str esc_did_str '\\'
    ['\\', ':', 'o', 'p', '\\', '\\', ':'] x2
    (fun m => by simp [esc_did_str, List.cons_prefix_cons]) h2
  obtain ⟨x4, rfl, h4⟩ := replace_force_lit did_str esc_did_str '\\'
    [':', 'o', 'p', '\\', '\\', ':'] x3
    (fun m => by simp [esc_did_str, List.cons_prefix_cons]) h3
  obtain ⟨x5, rfl, h5⟩ := replace_force_lit did_str esc_did_str ':'
    ['o', 'p', '\\', '\\', ':'] x4
    (fun m => by simp [esc_did_str, List.cons_prefix_cons]) h4
  obtain ⟨x6, rfl, h6⟩ := replace_force_lit did_str esc_did_str 'o'
    ['p', '\\', '\\', ':'] x5
    (fun m => by simp [esc_did_str, List.cons_prefix_cons]) h5
  obtain ⟨x7, rfl, h7⟩ := replace_force_lit did_str esc_did_str 'p'
    ['\\', '\\', ':'] x6
    (fun m => by simp [esc_did_str, List.cons_prefix_cons]) h6
  obtain ⟨x8, rfl, h8⟩ := replace_force_lit did_str esc_did_str '\\'
    ['\\', ':'] x7
    (fun m => by simp [esc_did_str, List.cons_prefix_cons]) h7
  obtain ⟨x9, rfl, h9⟩ := replace_force_lit did_str esc_did_str '\\'
    [':'] x8
    (fun m => by simp [esc_did_str, List.cons_prefix_cons]) h8
  obtain ⟨x10, rfl, h10⟩ := replace_force_lit did_str esc_did_str ':'
    [] x9
    (fun m => by simp [esc_did_str, List.cons_prefix_cons]) h9
  exact ⟨x10, rfl⟩

theorem force_esc_didTail (x : List Char)
    (h : ['i', 'd', ':', 'o', 'p', ':'] <+: replaceList did_str esc_did_str x) :
    ['i', 'd', ':', 'o', 'p', ':'] <+: x := by
  obtain ⟨x1, rfl, h1⟩ := replace_force_lit did_str esc_did_str 'i'
    ['d', ':', 'o', 'p', ':'] x
    (fun m => by simp [esc_did_str, List.cons_prefix_cons]) h
  obtain ⟨x2, rfl, h2⟩ := replace_force_lit did_str esc_did_str 'd'
    [':', 'o', 'p', ':'] x1
    (fun m => by simp [esc_did_str, List.cons_prefix_cons]) h1
  obtain ⟨x3, rfl, h3⟩ := replace_force_lit did_str esc_did_str ':'
    ['o', 'p', ':'] x2
    (fun m => by simp [esc_did_str, List.cons_prefix_cons]) h2
  obtain ⟨x4, rfl, h4⟩ := replace_force_lit did_str esc_did_str 'o'
    ['p', ':'] x3
    (fun m => by simp [esc_did_str, List.cons_prefix_cons]) h3
  obtain ⟨x5, rfl, h5⟩ := replace_force_lit did_str esc_did_str 'p'
    [':'] x4
    (fun m => by simp [esc_did_str, List.cons_prefix_cons]) h4
  obtain ⟨x6, rfl, h6⟩ := replace_force_lit did_str esc_did_str ':'
    [] x5
    (fun m => by simp [esc_did_str, List.cons_prefix_cons]) h5
  exact ⟨x6, rfl⟩

theorem escapeDids_nil : escapeDids [] = [] := by
  unfold escapeDids unescapeDids
  rw [replaceList_nil, replaceList_nil]

theorem escapeDids_esc_chunk (m : List Char) :
    escapeDids (esc_did_str ++ m) = esc_did_str ++ escapeDids m := by
  unfold escapeDids unescapeDids
  rw [unesc_esc_chunk, esc_did_chunk]

theorem escapeDids_did_chunk (m : List Char) :
    escapeDids (did_str ++ m) = esc_did_str ++ escapeDids m := by
  unfold escapeDids unescapeDids
  rw [unesc_did_chunk, esc_did_chunk]

theorem escapeDids_lit (c : Char) (cs : List Char)
    (hDid : ¬ did_str <+: (c :: cs)) (hEsc : ¬ esc_did_str <+: (c :: cs)) :
    escapeDids (c :: cs) = c :: escapeDids cs := by
  unfold escapeDids unescapeDids
  rw [replaceList_cons, if_neg hEsc]
  have hnd : ¬ did_str <+: (c :: replaceList esc_did_str did_str cs) := by
    intro hp
    have hp' : ('d' :: ['i', 'd', ':', 'o', 'p', ':']) <+:
        (c :: replaceList esc_did_str did_str cs) := hp
    obtain ⟨hc, hw⟩ := List.cons_prefix_cons.mp hp'
    exact hDid (List.cons_prefix_cons.mpr ⟨hc, force_unesc_didTail cs hw⟩)
  rw [replaceList_cons, if_neg hnd]

theorem escapeDids_lit_noDid (c : Char) (cs : List Char)
    (hDid : ¬ did_str <+: (c :: cs)) :
    ¬ did_str <+: (c :: escapeDids cs) := by
  intro hp
  have hp' : ('d' :: ['i', 'd', ':', 'o', 'p', ':']) <+:
      (c :: escapeDids cs) := hp
  obtain ⟨hc, hw⟩ := List.cons_prefix_cons.mp hp'
  have hw1 := force_esc_didTail (unescapeDids cs) hw
  have hw2 := force_unesc_didTail cs hw1
  exact hDid (List.cons_prefix_cons.mpr ⟨hc, hw2⟩)

theorem escapeDids_lit_noEsc (c : Char) (cs : List Char)
    (hEsc : ¬ esc_did_str <+: (c :: cs)) :
    ¬ esc_did_str <+: (c :: escapeDids cs) := by
  intro hp
  have hp' : ('d' :: ['i', 'd', '\\', '\\', ':', 'o', 'p', '\\', '\\', ':']) <+:
      (c :: escapeDids cs) := hp
  obtain ⟨hc, hw⟩ := List.cons_prefix_cons.mp hp'
  have hw1 := force_esc_escTail (unescapeDids cs) hw
  have hw2 := force_unesc_escTail cs hw1
  exact hEsc (List.cons_prefix_cons.mpr ⟨hc, hw2⟩)

theorem escapeDids_idem (l : List Char) :
    escapeDids (escapeDids l) = escapeDids l := by
  have aux : ∀ (n : Nat) (l : List Char), l.length ≤ n →
      escapeDids (escapeDids l) = escapeDids l := by
    intro n
    induction n with
    | zero =>
      intro l hl
      obtain rfl : l = [] := List.length_eq_zero.mp (Nat.le_zero.mp hl)
      rw [escapeDids_nil, escapeDids_nil]
    | succ n ih =>
      intro l hl
      by_cases hEsc : esc_did_str <+: l
      · obtain ⟨m, rfl⟩ := hEsc
        rw [escapeDids_esc_chunk, escapeDids_esc_chunk,
          ih m (by simp [esc_did_str] at hl; omega)]
      · by_cases hDid : did_str <+: l
        · obtain ⟨m, rfl⟩ := hDid
          rw [escapeDids_did_chunk, escapeDids_esc_chunk,
            ih m (by simp [did_str] at hl; omega)]
        · cases l with
          | nil => rw [escapeDids_nil, escapeDids_nil]
          | cons c cs =>
            rw [escapeDids_lit c cs hDid hEsc,
              escapeDids_lit c _ (escapeDids_lit_noDid c cs hDid)
                (escapeDids_lit_noEsc c cs hEsc),
              ih cs (by simp at hl; omega)]
  exact aux l.length l le_rfl

/-- C10: the DID-escaping rewrite of the query handler (first replace every
escaped occurrence `esc_did_str` by `did:op:`, then replace every
`did:op:` by `esc_did_str`) is idempotent on every query string: applying
it twice yields the same string as applying it once, so an already-escaped
query is never double-escaped. -/
theorem did_escape_rewrite_idempotent (s : String) :
    escapeDidsStr (escapeDidsStr s) = escapeDidsStr s := by
  unfold escapeDidsStr
  have h : (List.asString (escapeDids s.toList)).toList =
      escapeDids s.toList := rfl
  rw [h, escapeDids_idem]

end Aquarius
